import Mathlib

/-!
# ipCheckApi: the caching, round-robin lookup service

A shallow embedding of `internal/models/ip_info.go` and
`internal/service/ip_service.go`, followed by theorems about the cache, the
rotation cursor and the provider registry.

Modelling conventions.

* `time.Time` is an integer count of nanoseconds since the Unix epoch; every
  `time.Now()` the code reads is an explicit input of the embedded function.
* `float64` fields are carried as their IEEE-754 bit pattern; no arithmetic is
  done on them.
* The Go map `map[string]*CachedIPInfo` is an association list with at most one
  pair per key.
* The HTTP exchange of `fetchFromIPLocationNet` is an input (`HttpReply`).
* A Go run-time panic (index out of range) is the result `Outcome.panic`.
* The service is run sequentially: locks are not modelled.
-/

namespace IPCheckApi

/-! ## internal/models/ip_info.go -/

/-- An instant of `time.Time`: nanoseconds since the Unix epoch. -/
abbrev Time := Int

/-- Go's `time.Hour`, in nanoseconds. -/
def Hour : Int := 3600000000000

/-- The method `t.After(u)`: `t` is strictly later than `u`. -/
def Time.After (t u : Time) : Bool := decide (u < t)

/-- The method `t.Add(d)`. -/
def Time.Add (t : Time) (d : Int) : Time := t + d

/-- The method `t.Unix()`: whole seconds since the epoch, rounded down. -/
def Time.Unix (t : Time) : Int := Int.fdiv t 1000000000

/-- A `float64`, carried as its bit pattern. -/
abbrev Float64 := Nat

/-- The struct `IPInfo`. -/
structure IPInfo where
  IPAddress : String
  CountryName : String
  CountryCode : String
  RegionName : String
  CityName : String
  ISP : String
  Latitude : Float64
  Longitude : Float64
  Timestamp : Int
  deriving DecidableEq

/-- The struct `CachedIPInfo`. -/
structure CachedIPInfo where
  Data : IPInfo
  CachedAt : Time
  ExpiresAt : Time
  deriving DecidableEq

/-- The method `IsExpired`: `time.Now().After(c.ExpiresAt)`, with the clock
reading `now` passed in. -/
def CachedIPInfo.IsExpired (c : CachedIPInfo) (now : Time) : Bool :=
  Time.After now c.ExpiresAt

/-- The anonymous struct `Res` of `IPLocationNetResponse`. -/
structure IPLocationNetRes where
  IPNumber : String
  IPVersion : Int
  IPAddress : String
  Latitude : Float64
  Longitude : Float64
  CountryName : String
  CountryCode : String
  ISP : String
  CityName : String
  RegionName : String
  deriving DecidableEq

/-- The struct `IPLocationNetResponse`. -/
structure IPLocationNetResponse where
  IsProxy : Bool
  Source : String
  Res : IPLocationNetRes
  deriving DecidableEq

/-- The method `ToIPInfo`; `now` is the `time.Now()` it stamps the record with. -/
def IPLocationNetResponse.ToIPInfo (r : IPLocationNetResponse) (now : Time) : IPInfo :=
  { IPAddress := r.Res.IPAddress
    CountryName := r.Res.CountryName
    CountryCode := r.Res.CountryCode
    RegionName := r.Res.RegionName
    CityName := r.Res.CityName
    ISP := r.Res.ISP
    Latitude := r.Res.Latitude
    Longitude := r.Res.Longitude
    Timestamp := Time.Unix now }

/-- The struct `APIProvider`. -/
structure APIProvider where
  Name : String
  URL : String
  Enabled : Bool
  deriving DecidableEq

/-! ## internal/service/ip_service.go -/

/-- The map `map[string]*CachedIPInfo`. -/
abbrev Cache := List (String × CachedIPInfo)

/-- The map read `cache[ip]`. -/
def Cache.get : Cache → String → Option CachedIPInfo
  | [], _ => none
  | (k, v) :: rest, ip => if k = ip then some v else Cache.get rest ip

/-- The builtin `delete(cache, ip)`. -/
def Cache.delete : Cache → String → Cache
  | [], _ => []
  | (k, v) :: rest, ip => if k = ip then Cache.delete rest ip else (k, v) :: Cache.delete rest ip

/-- The map write `cache[ip] = entry`. -/
def Cache.set (c : Cache) (ip : String) (entry : CachedIPInfo) : Cache :=
  (ip, entry) :: Cache.delete c ip

/-- The struct `IPService`, without its two mutexes. -/
structure IPService where
  cache : Cache
  providers : List APIProvider
  currentIndex : Nat

/-- The constructor `NewIPService`. -/
def NewIPService : IPService :=
  { cache := []
    providers := [{ Name := "iplocation.net", URL := "https://www.iplocation.net/get-ipdata", Enabled := true }]
    currentIndex := 0 }

/-- How a Go call ends: a value with a nil error, a non-nil error, or a
run-time panic. -/
inductive Outcome (α : Type) where
  | ok : α → Outcome α
  | error : String → Outcome α
  | panic : Outcome α
  deriving DecidableEq

/-- What the network gives back to one `fetchFromIPLocationNet`. -/
inductive HttpReply where
  /-- The call `http.NewRequest` failed. -/
  | requestError (msg : String)
  /-- The call `client.Do` failed (the 10 second timeout included). -/
  | transportError (msg : String)
  /-- A response arrived: its status code, the outcome of decoding its body,
  and the clock reading used by `ToIPInfo`. -/
  | response (statusCode : Nat) (body : Except String IPLocationNetResponse) (now : Time)

/-- The network as one adapter call sees it: from the endpoint URL, the IP and
the IP version to a reply. -/
abbrev Http := String → String → String → HttpReply

/-- The method `getCachedInfo`; `now` is the clock read by `IsExpired`. -/
def getCachedInfo (s : IPService) (now : Time) (ip : String) : Option CachedIPInfo × IPService :=
  match Cache.get s.cache ip with
  | none => (none, s)
  | some cachedInfo =>
    if cachedInfo.IsExpired now then
      (none, { s with cache := Cache.delete s.cache ip })
    else
      (some cachedInfo, s)

/-- The method `cacheInfo`; `now` is its `time.Now()`. -/
def cacheInfo (s : IPService) (now : Time) (ip : String) (info : IPInfo) : IPService :=
  let entry : CachedIPInfo := { Data := info, CachedAt := now, ExpiresAt := Time.Add now Hour }
  { s with cache := Cache.set s.cache ip entry }

/-- The method `getEnabledProviders`. -/
def getEnabledProviders (s : IPService) : List APIProvider :=
  s.providers.filter (fun provider => provider.Enabled)

/-- The method `getNextProvider`: `none` is the index-out-of-range panic of
`providers[s.currentIndex]`. -/
def getNextProvider (s : IPService) (providers : List APIProvider) : Option (APIProvider × IPService) :=
  match providers[s.currentIndex]? with
  | none => none
  | some provider =>
    some (provider, { s with currentIndex := (s.currentIndex + 1) % providers.length })

/-- The method `fetchFromIPLocationNet`. -/
def fetchFromIPLocationNet (http : Http) (apiURL ip ipvType : String) : Except String IPInfo :=
  match http apiURL ip ipvType with
  | .requestError msg => .error ("failed to create request: " ++ msg)
  | .transportError msg => .error ("failed to make request: " ++ msg)
  | .response statusCode body now =>
    if statusCode ≠ 200 then
      .error ("API returned status code: " ++ toString statusCode)
    else
      match body with
      | .error msg => .error ("failed to decode response: " ++ msg)
      | .ok apiResponse => .ok (apiResponse.ToIPInfo now)

/-- The method `fetchFromProvider`: the adapter of a provider. -/
def fetchFromProvider (http : Http) (provider : APIProvider) (ip ipvType : String) :
    Except String IPInfo :=
  if provider.Name = "iplocation.net" then
    fetchFromIPLocationNet http provider.URL ip ipvType
  else
    .error ("unsupported provider: " ++ provider.Name)

/-- The `for` loop of `fetchFromProviders`, with `k` iterations left and `i`
the loop counter; `http i` is the network at the `i`-th iteration. Returns the
outcome, the state and the providers whose adapter was called, in order. The
line printed for a failed provider is not modelled. -/
def fetchLoop (http : Nat → Http) (enabledProviders : List APIProvider) (ip ipvType : String) :
    Nat → Nat → IPService → Outcome IPInfo × IPService × List APIProvider
  | 0, _, s => (.error "all providers failed to fetch IP information", s, [])
  | k + 1, i, s =>
    match getNextProvider s enabledProviders with
    | none => (.panic, s, [])
    | some (provider, s1) =>
      match fetchFromProvider (http i) provider ip ipvType with
      | .ok ipInfo => (.ok ipInfo, s1, [provider])
      | .error _ =>
        let r := fetchLoop http enabledProviders ip ipvType k (i + 1) s1
        (r.1, r.2.1, provider :: r.2.2)

/-- The method `fetchFromProviders`. -/
def fetchFromProviders (s : IPService) (http : Nat → Http) (ip ipvType : String) :
    Outcome IPInfo × IPService × List APIProvider :=
  let enabledProviders := getEnabledProviders s
  if enabledProviders.length = 0 then
    (.error "no enabled providers available", s, [])
  else
    let ipvType := if ipvType = "" then "4" else ipvType
    fetchLoop http enabledProviders ip ipvType enabledProviders.length 0 s

/-- What one `GetIPInfo` call reads from outside the service. -/
structure Env where
  /-- The clock read by `IsExpired` in `getCachedInfo`. -/
  now : Time
  /-- The network at each iteration of the provider loop. -/
  http : Nat → Http
  /-- The clock read by `cacheInfo`. -/
  storeTime : Time

/-- The observable run of one `GetIPInfo`. -/
structure Lookup where
  /-- The returned record or error, or a panic. -/
  result : Outcome IPInfo
  /-- The service afterwards. -/
  state : IPService
  /-- The providers whose adapter was called, in call order. -/
  calls : List APIProvider

/-- The method `GetIPInfo`. -/
def GetIPInfo (s : IPService) (env : Env) (ip ipvType : String) : Lookup :=
  match getCachedInfo s env.now ip with
  | (some cachedInfo, s1) => { result := .ok cachedInfo.Data, state := s1, calls := [] }
  | (none, s1) =>
    match fetchFromProviders s1 env.http ip ipvType with
    | (.ok ipInfo, s2, calls) =>
      { result := .ok ipInfo, state := cacheInfo s2 env.storeTime ip ipInfo, calls := calls }
    | (.error e, s2, calls) => { result := .error e, state := s2, calls := calls }
    | (.panic, s2, calls) => { result := .panic, state := s2, calls := calls }

/-- The method `AddProvider`. -/
def AddProvider (s : IPService) (provider : APIProvider) : IPService :=
  { s with providers := s.providers ++ [provider] }

/-- The method `GetProviders`. -/
def GetProviders (s : IPService) : List APIProvider := s.providers

/-- The loop of `EnableProvider` over the provider slice: `none` when no
provider has the name. -/
def enableLoop (name : String) (enabled : Bool) : List APIProvider → Option (List APIProvider)
  | [] => none
  | provider :: rest =>
    if provider.Name = name then
      some ({ provider with Enabled := enabled } :: rest)
    else
      (enableLoop name enabled rest).map (fun rest1 => provider :: rest1)

/-- The method `EnableProvider`: the returned error (`none` is `nil`) and the
service afterwards. -/
def EnableProvider (s : IPService) (name : String) (enabled : Bool) : Option String × IPService :=
  match enableLoop name enabled s.providers with
  | some providers => (none, { s with providers := providers })
  | none => (some ("provider " ++ name ++ " not found"), s)

/-- The method `ClearCache`. -/
def ClearCache (s : IPService) : IPService := { s with cache := [] }

/-- One element of the `entries` list of `GetCacheStats`. -/
structure StatsEntry where
  ip : String
  cached_at : Int
  expires_at : Int
  expired : Bool
  deriving DecidableEq

/-- The map returned by `GetCacheStats`. -/
structure CacheStats where
  total_entries : Nat
  entries : List StatsEntry
  deriving DecidableEq

/-- The method `GetCacheStats`; `clock i` is the clock read by `IsExpired` for
the `i`-th entry visited. The entries come in the order of the association
list, Go leaving the iteration order of a map unspecified. -/
def GetCacheStats (s : IPService) (clock : Nat → Time) : CacheStats :=
  { total_entries := s.cache.length
    entries := s.cache.enum.map (fun e =>
      { ip := e.2.1
        cached_at := Time.Unix e.2.2.CachedAt
        expires_at := Time.Unix e.2.2.ExpiresAt
        expired := e.2.2.IsExpired (clock e.1) }) }

/-- A call of one of the state-changing methods of the service. -/
inductive Op where
  | addProvider (provider : APIProvider)
  | enableProvider (name : String) (enabled : Bool)
  | clearCache
  | getIPInfo (env : Env) (ip ipvType : String)

/-- The service after one call. A lookup that panics leaves the service as it
was when the panic was raised: the router of `main.go` is `gin.Default()`,
which recovers the panic of a handler and keeps serving. -/
def step (s : IPService) : Op → IPService
  | .addProvider provider => AddProvider s provider
  | .enableProvider name enabled => (EnableProvider s name enabled).2
  | .clearCache => ClearCache s
  | .getIPInfo env ip ipvType => (GetIPInfo s env ip ipvType).state

/-- The service after a sequence of calls. -/
def run (s : IPService) (ops : List Op) : IPService := ops.foldl step s

/-- The calls `GetIPInfo(q.2.1, q.2.2)` made one after the other, each with
its own outside world `q.1`; the runs are returned in call order. -/
def serve : IPService → List (Env × String × String) → List Lookup
  | _, [] => []
  | s, q :: rest =>
    (GetIPInfo s q.1 q.2.1 q.2.2) :: serve (GetIPInfo s q.1 q.2.1 q.2.2).state rest

/-! ## Concrete inputs used to evaluate the service -/

/-- A decoded iplocation.net payload. -/
def sampleResponse : IPLocationNetResponse :=
  { IsProxy := false
    Source := "ip2location"
    Res :=
      { IPNumber := "16909060", IPVersion := 4, IPAddress := "1.2.3.4", Latitude := 0,
        Longitude := 0, CountryName := "United States of America", CountryCode := "US",
        ISP := "isp", CityName := "city", RegionName := "region" } }

/-- A network on which every request is answered with status 200 and
`sampleResponse`, the adapter reading the clock at `t`. -/
def upHttp (t : Time) : Http := fun _ _ _ => .response 200 (.ok sampleResponse) t

/-- A network on which every request times out. -/
def downHttp : Http := fun _ _ _ => .transportError "timeout"

/-- A network that answers only the endpoint `url`. -/
def onlyHttp (url : String) (t : Time) : Http := fun apiURL _ _ =>
  if apiURL = url then .response 200 (.ok sampleResponse) t else .transportError "timeout"

/-- The outside world of a lookup at time `t` with the network up. -/
def envUp (t : Time) : Env := { now := t, http := fun _ => upHttp t, storeTime := t }

/-- The outside world of a lookup at time `t` with the network down. -/
def envDown (t : Time) : Env := { now := t, http := fun _ => downHttp, storeTime := t }

/-- The outside world of a lookup at time `t` where only `url` answers. -/
def envOnly (url : String) (t : Time) : Env :=
  { now := t, http := fun _ => onlyHttp url t, storeTime := t }

/-- A second enabled provider, as `AddProvider` may receive it. -/
def providerB : APIProvider := { Name := "b", URL := "https://b.example/ip", Enabled := true }

/-- A second enabled provider served by the iplocation.net adapter. -/
def mirror : APIProvider :=
  { Name := "iplocation.net", URL := "https://mirror.example/get-ipdata", Enabled := true }

/-- The calls after which the cursor is past the end of the enabled list: add
`providerB`, look `1.1.1.1` up at time 0 (served by iplocation.net, the cursor
moves to 1), disable `providerB`. -/
def shrinkOps : List Op :=
  [.addProvider providerB, .getIPInfo (envUp 0) "1.1.1.1" "4", .enableProvider "b" false]

/-- The service after `shrinkOps`. -/
def shrunk : IPService := run NewIPService shrinkOps

/-- A service with two enabled providers that share the iplocation.net adapter. -/
def twoProviders : IPService := AddProvider NewIPService mirror

/-- Calls made between two lookups of `1.2.3.4`: a provider is added, another
key is looked up at 5 minutes, `1.2.3.4` is looked up at 10 minutes with the
network down, and the added provider is disabled. -/
def laterOps : List Op :=
  [.addProvider providerB, .getIPInfo (envUp 300000000000) "9.9.9.9" "4",
   .getIPInfo (envDown 600000000000) "1.2.3.4" "6", .enableProvider "b" false]

/-- Three lookups of distinct keys with the network up. -/
def threeRequests : List (Env × String × String) :=
  [(envUp 0, "1.1.1.1", "4"), (envUp 1, "2.2.2.2", ""), (envUp 2, "3.3.3.3", "4")]

/-! ## The cache as a finite map -/

theorem Cache.get_delete_self (c : Cache) (ip : String) : Cache.get (Cache.delete c ip) ip = none := by
  induction c with
  | nil => rfl
  | cons kv rest ih =>
    obtain ⟨k, v⟩ := kv
    by_cases h : k = ip
    · simp [Cache.delete, h, ih]
    · simp [Cache.delete, Cache.get, h, ih]

theorem Cache.get_delete_ne (c : Cache) (ip k : String) (hk : k ≠ ip) :
    Cache.get (Cache.delete c ip) k = Cache.get c k := by
  induction c with
  | nil => rfl
  | cons kv rest ih =>
    obtain ⟨k0, v⟩ := kv
    by_cases h : k0 = ip
    · have h0 : ¬ k0 = k := fun e => hk (e ▸ h)
      simp only [Cache.delete, Cache.get, if_pos h, if_neg h0, ih]
    · by_cases h1 : k0 = k
      · simp only [Cache.delete, Cache.get, if_neg h, if_pos h1]
      · simp only [Cache.delete, Cache.get, if_neg h, if_neg h1, ih]

theorem Cache.mem_delete (c : Cache) (ip : String) (kv : String × CachedIPInfo)
    (h : kv ∈ Cache.delete c ip) : kv ∈ c ∧ kv.1 ≠ ip := by
  induction c with
  | nil => simp [Cache.delete] at h
  | cons kv0 rest ih =>
    obtain ⟨k0, v⟩ := kv0
    by_cases h0 : k0 = ip
    · simp only [Cache.delete, h0, if_true] at h
      exact ⟨List.mem_cons_of_mem _ (ih h).1, (ih h).2⟩
    · simp only [Cache.delete, h0, if_false, List.mem_cons] at h
      rcases h with h | h
      · subst h
        exact ⟨List.mem_cons_self _ _, h0⟩
      · exact ⟨List.mem_cons_of_mem _ (ih h).1, (ih h).2⟩

theorem Cache.get_set_self (c : Cache) (ip : String) (e : CachedIPInfo) :
    Cache.get (Cache.set c ip e) ip = some e := by
  simp [Cache.set, Cache.get]

theorem Cache.get_set_ne (c : Cache) (ip k : String) (e : CachedIPInfo) (hk : k ≠ ip) :
    Cache.get (Cache.set c ip e) k = Cache.get c k := by
  have h : ip ≠ k := fun e => hk e.symm
  simp [Cache.set, Cache.get, h, Cache.get_delete_ne c ip k hk]

theorem Cache.get_mem (c : Cache) (k : String) (e : CachedIPInfo) (h : Cache.get c k = some e) :
    (k, e) ∈ c := by
  induction c with
  | nil => simp [Cache.get] at h
  | cons kv rest ih =>
    obtain ⟨k0, v⟩ := kv
    by_cases h0 : k0 = k
    · simp only [Cache.get, h0, if_true, Option.some.injEq] at h
      subst h0 h
      exact List.mem_cons_self _ _
    · simp only [Cache.get, h0, if_false] at h
      exact List.mem_cons_of_mem _ (ih h)

/-! ## The provider loop -/

theorem getNextProvider_of_lt (s : IPService) (providers : List APIProvider)
    (h : s.currentIndex < providers.length) :
    getNextProvider s providers =
      some (providers[s.currentIndex], { s with currentIndex := (s.currentIndex + 1) % providers.length }) := by
  simp [getNextProvider, List.getElem?_eq_getElem h]

theorem getNextProvider_of_ge (s : IPService) (providers : List APIProvider)
    (h : providers.length ≤ s.currentIndex) : getNextProvider s providers = none := by
  simp [getNextProvider, List.getElem?_eq_none h]

theorem fetchLoop_zero (http : Nat → Http) (enabled : List APIProvider) (ip v : String)
    (i : Nat) (s : IPService) :
    fetchLoop http enabled ip v 0 i s =
      (.error "all providers failed to fetch IP information", s, []) := rfl

theorem fetchLoop_succ_panic (http : Nat → Http) (enabled : List APIProvider) (ip v : String)
    (k i : Nat) (s : IPService) (h : getNextProvider s enabled = none) :
    fetchLoop http enabled ip v (k + 1) i s = (.panic, s, []) := by
  simp [fetchLoop, h]

theorem fetchLoop_succ_ok (http : Nat → Http) (enabled : List APIProvider) (ip v : String)
    (k i : Nat) (s s1 : IPService) (p : APIProvider) (info : IPInfo)
    (h : getNextProvider s enabled = some (p, s1))
    (hf : fetchFromProvider (http i) p ip v = .ok info) :
    fetchLoop http enabled ip v (k + 1) i s = (.ok info, s1, [p]) := by
  simp [fetchLoop, h, hf]

theorem fetchLoop_succ_error (http : Nat → Http) (enabled : List APIProvider) (ip v : String)
    (k i : Nat) (s s1 : IPService) (p : APIProvider) (e : String)
    (h : getNextProvider s enabled = some (p, s1))
    (hf : fetchFromProvider (http i) p ip v = .error e) :
    fetchLoop http enabled ip v (k + 1) i s =
      ((fetchLoop http enabled ip v k (i + 1) s1).1,
       (fetchLoop http enabled ip v k (i + 1) s1).2.1,
       p :: (fetchLoop http enabled ip v k (i + 1) s1).2.2) := by
  simp [fetchLoop, h, hf]

theorem fetchLoop_spec (http : Nat → Http) (enabled : List APIProvider) (ip v : String) :
    ∀ (k i : Nat) (s : IPService), s.currentIndex < enabled.length →
      (fetchLoop http enabled ip v k i s).2.2.length ≤ k ∧
      (fetchLoop http enabled ip v k i s).2.1.cache = s.cache ∧
      (fetchLoop http enabled ip v k i s).2.1.providers = s.providers ∧
      (fetchLoop http enabled ip v k i s).2.1.currentIndex =
        (s.currentIndex + (fetchLoop http enabled ip v k i s).2.2.length) % enabled.length ∧
      (∀ j, j < (fetchLoop http enabled ip v k i s).2.2.length →
        (fetchLoop http enabled ip v k i s).2.2[j]? = enabled[(s.currentIndex + j) % enabled.length]?) ∧
      (∀ j p, (fetchLoop http enabled ip v k i s).2.2[j]? = some p →
        j + 1 < (fetchLoop http enabled ip v k i s).2.2.length →
        ∃ e, fetchFromProvider (http (i + j)) p ip v = .error e) ∧
      ((∃ info p, (fetchLoop http enabled ip v k i s).1 = .ok info ∧
          (fetchLoop http enabled ip v k i s).2.2[(fetchLoop http enabled ip v k i s).2.2.length - 1]? = some p ∧
          fetchFromProvider (http (i + ((fetchLoop http enabled ip v k i s).2.2.length - 1))) p ip v = .ok info) ∨
       ((fetchLoop http enabled ip v k i s).1 = .error "all providers failed to fetch IP information" ∧
        (fetchLoop http enabled ip v k i s).2.2.length = k ∧
        ∀ j p, (fetchLoop http enabled ip v k i s).2.2[j]? = some p →
          ∃ e, fetchFromProvider (http (i + j)) p ip v = .error e)) := by
  intro k
  induction k with
  | zero =>
    intro i s hs
    simp [fetchLoop, Nat.mod_eq_of_lt hs]
  | succ k ih =>
    intro i s hs
    have hpos : 0 < enabled.length := by omega
    have hlt : (s.currentIndex + 1) % enabled.length < enabled.length := Nat.mod_lt _ hpos
    have hnext := getNextProvider_of_lt s enabled hs
    cases hf : fetchFromProvider (http i) enabled[s.currentIndex] ip v with
    | ok info =>
      rw [fetchLoop_succ_ok http enabled ip v k i s _ _ info hnext hf]
      simp only [List.length_singleton, Nat.sub_self, Nat.add_zero]
      refine ⟨by omega, trivial, trivial, trivial, ?_, ?_, ?_⟩
      · intro j hj
        have : j = 0 := by omega
        subst this
        simp [Nat.mod_eq_of_lt hs, List.getElem?_eq_getElem hs]
      · intro j p _ hj
        omega
      · left
        exact ⟨info, enabled[s.currentIndex], rfl, by simp, hf⟩
    | error e =>
      obtain ⟨h1, h2, h3, h4, h5, h6, h7⟩ :=
        ih (i + 1) { s with currentIndex := (s.currentIndex + 1) % enabled.length } hlt
      rw [fetchLoop_succ_error http enabled ip v k i s _ _ e hnext hf]
      simp only [List.length_cons]
      refine ⟨by omega, h2, h3, ?_, ?_, ?_, ?_⟩
      · rw [h4]
        simp only [Nat.mod_add_mod]
        congr 1
        omega
      · intro j hj
        cases j with
        | zero => simp [Nat.mod_eq_of_lt hs, List.getElem?_eq_getElem hs]
        | succ j =>
          simp only [List.getElem?_cons_succ]
          rw [h5 j (by omega)]
          simp only [Nat.mod_add_mod]
          congr 2
          omega
      · intro j p hp hj
        cases j with
        | zero =>
          simp only [List.getElem?_cons_zero, Option.some.injEq] at hp
          subst hp
          exact ⟨e, hf⟩
        | succ j =>
          simp only [List.getElem?_cons_succ] at hp
          have := h6 j p hp (by omega)
          rwa [show i + 1 + j = i + (j + 1) by omega] at this
      · rcases h7 with ⟨info, p, ha, hb, hc⟩ | ⟨ha, hb, hc⟩
        · left
          have hm : 1 ≤ (fetchLoop http enabled ip v k (i + 1)
              { s with currentIndex := (s.currentIndex + 1) % enabled.length }).2.2.length := by
            by_contra hcon
            have h0 : (fetchLoop http enabled ip v k (i + 1)
              { s with currentIndex := (s.currentIndex + 1) % enabled.length }).2.2 = [] := by
              apply List.eq_nil_of_length_eq_zero
              omega
            rw [h0] at hb
            simp at hb
          refine ⟨info, p, ha, ?_, ?_⟩
          · simp only [Nat.add_sub_cancel]
            obtain ⟨m, hm1⟩ : ∃ m, (fetchLoop http enabled ip v k (i + 1)
              { s with currentIndex := (s.currentIndex + 1) % enabled.length }).2.2.length = m + 1 :=
              ⟨_, (Nat.sub_add_cancel hm).symm⟩
            rw [hm1] at hb ⊢
            simpa using hb
          · simp only [Nat.add_sub_cancel]
            obtain ⟨m, hm1⟩ : ∃ m, (fetchLoop http enabled ip v k (i + 1)
              { s with currentIndex := (s.currentIndex + 1) % enabled.length }).2.2.length = m + 1 :=
              ⟨_, (Nat.sub_add_cancel hm).symm⟩
            rw [hm1] at hc ⊢
            rwa [show i + 1 + (m + 1 - 1) = i + (m + 1) by omega] at hc
        · right
          refine ⟨ha, by omega, ?_⟩
          intro j p hp
          cases j with
          | zero =>
            simp only [List.getElem?_cons_zero, Option.some.injEq] at hp
            subst hp
            exact ⟨e, hf⟩
          | succ j =>
            simp only [List.getElem?_cons_succ] at hp
            have := hc j p hp
            rwa [show i + 1 + j = i + (j + 1) by omega] at this

theorem getNextProvider_frame (s s1 : IPService) (providers : List APIProvider) (p : APIProvider)
    (h : getNextProvider s providers = some (p, s1)) :
    s1.cache = s.cache ∧ s1.providers = s.providers := by
  unfold getNextProvider at h
  cases hp : providers[s.currentIndex]? with
  | none => simp [hp] at h
  | some q =>
    simp only [hp, Option.some.injEq, Prod.mk.injEq] at h
    obtain ⟨_, h2⟩ := h
    subst h2
    exact ⟨rfl, rfl⟩

theorem fetchLoop_frame (http : Nat → Http) (enabled : List APIProvider) (ip v : String) :
    ∀ (k i : Nat) (s : IPService),
      (fetchLoop http enabled ip v k i s).2.1.cache = s.cache ∧
      (fetchLoop http enabled ip v k i s).2.1.providers = s.providers := by
  intro k
  induction k with
  | zero => intro i s; exact ⟨rfl, rfl⟩
  | succ k ih =>
    intro i s
    cases hnext : getNextProvider s enabled with
    | none =>
      rw [fetchLoop_succ_panic http enabled ip v k i s hnext]
      exact ⟨rfl, rfl⟩
    | some ps =>
      obtain ⟨p, s1⟩ := ps
      have hfr := getNextProvider_frame s s1 enabled p hnext
      cases hf : fetchFromProvider (http i) p ip v with
      | ok info =>
        rw [fetchLoop_succ_ok http enabled ip v k i s s1 p info hnext hf]
        exact hfr
      | error e =>
        rw [fetchLoop_succ_error http enabled ip v k i s s1 p e hnext hf]
        exact ⟨(ih (i + 1) s1).1.trans hfr.1, (ih (i + 1) s1).2.trans hfr.2⟩

theorem fetchFromProviders_frame (s : IPService) (http : Nat → Http) (ip ipvType : String) :
    (fetchFromProviders s http ip ipvType).2.1.cache = s.cache ∧
    (fetchFromProviders s http ip ipvType).2.1.providers = s.providers := by
  unfold fetchFromProviders
  by_cases h : (getEnabledProviders s).length = 0
  · simp [h]
  · simp only [h, if_false]
    exact fetchLoop_frame _ _ _ _ _ _ _

theorem fetchFromProviders_eq_loop (s : IPService) (http : Nat → Http) (ip ipvType : String)
    (hn : 1 ≤ (getEnabledProviders s).length) :
    fetchFromProviders s http ip ipvType =
      fetchLoop http (getEnabledProviders s) ip (if ipvType = "" then "4" else ipvType)
        (getEnabledProviders s).length 0 s := by
  have h : ¬ (getEnabledProviders s).length = 0 := by omega
  simp [fetchFromProviders, h]

/-! ## The cache check -/

theorem getCachedInfo_frame (s : IPService) (now : Time) (ip : String) :
    (getCachedInfo s now ip).2.providers = s.providers ∧
    (getCachedInfo s now ip).2.currentIndex = s.currentIndex := by
  unfold getCachedInfo
  cases Cache.get s.cache ip with
  | none => exact ⟨rfl, rfl⟩
  | some c =>
    by_cases h : c.IsExpired now = true
    · simp [h]
    · simp [h]

theorem getCachedInfo_get_ne (s : IPService) (now : Time) (ip k : String) (hk : k ≠ ip) :
    Cache.get (getCachedInfo s now ip).2.cache k = Cache.get s.cache k := by
  unfold getCachedInfo
  cases Cache.get s.cache ip with
  | none => rfl
  | some c =>
    by_cases h : c.IsExpired now = true
    · simp [h, Cache.get_delete_ne s.cache ip k hk]
    · simp [h]

theorem getCachedInfo_mem (s : IPService) (now : Time) (ip : String) (kv : String × CachedIPInfo)
    (h : kv ∈ (getCachedInfo s now ip).2.cache) : kv ∈ s.cache := by
  unfold getCachedInfo at h
  cases hg : Cache.get s.cache ip with
  | none => simpa [hg] using h
  | some c =>
    by_cases he : c.IsExpired now = true
    · simp only [hg, he, if_true] at h
      exact (Cache.mem_delete _ _ _ h).1
    · simpa [hg, he] using h

theorem getCachedInfo_miss (s : IPService) (now : Time) (ip : String)
    (h : (getCachedInfo s now ip).1 = none) :
    Cache.get (getCachedInfo s now ip).2.cache ip = none := by
  unfold getCachedInfo at h ⊢
  cases hg : Cache.get s.cache ip with
  | none => simp [hg]
  | some c =>
    by_cases he : c.IsExpired now = true
    · simp [he, Cache.get_delete_self]
    · simp [hg, he] at h

theorem getCachedInfo_hit (s : IPService) (now : Time) (ip : String) (c : CachedIPInfo)
    (hg : Cache.get s.cache ip = some c) (he : c.IsExpired now = false) :
    getCachedInfo s now ip = (some c, s) := by
  simp [getCachedInfo, hg, he]

theorem getCachedInfo_fst_congr (s s1 : IPService) (now : Time) (ip : String)
    (h : Cache.get s1.cache ip = Cache.get s.cache ip) :
    (getCachedInfo s1 now ip).1 = (getCachedInfo s now ip).1 := by
  unfold getCachedInfo
  rw [h]
  cases Cache.get s.cache ip with
  | none => rfl
  | some c =>
    by_cases he : c.IsExpired now = true
    · simp [he]
    · simp [he]

/-! ## One lookup that misses the cache -/

theorem GetIPInfo_miss (s : IPService) (env : Env) (ip ipvType : String)
    (hmiss : (getCachedInfo s env.now ip).1 = none) :
    (GetIPInfo s env ip ipvType).result =
        (fetchFromProviders (getCachedInfo s env.now ip).2 env.http ip ipvType).1 ∧
    (GetIPInfo s env ip ipvType).calls =
        (fetchFromProviders (getCachedInfo s env.now ip).2 env.http ip ipvType).2.2 ∧
    (GetIPInfo s env ip ipvType).state.providers = s.providers ∧
    (GetIPInfo s env ip ipvType).state.currentIndex =
        (fetchFromProviders (getCachedInfo s env.now ip).2 env.http ip ipvType).2.1.currentIndex ∧
    (∀ info, (GetIPInfo s env ip ipvType).result = .ok info →
      (GetIPInfo s env ip ipvType).state.cache =
        Cache.set (getCachedInfo s env.now ip).2.cache ip
          { Data := info, CachedAt := env.storeTime, ExpiresAt := env.storeTime + Hour }) ∧
    ((∀ info, (GetIPInfo s env ip ipvType).result ≠ .ok info) →
      (GetIPInfo s env ip ipvType).state.cache = (getCachedInfo s env.now ip).2.cache) := by
  have hfr := fetchFromProviders_frame (getCachedInfo s env.now ip).2 env.http ip ipvType
  have hcf := getCachedInfo_frame s env.now ip
  unfold GetIPInfo
  rcases hg : getCachedInfo s env.now ip with ⟨o, s1⟩
  rw [hg] at hmiss hfr hcf
  simp only at hmiss hfr hcf
  subst hmiss
  simp only
  rcases hf : fetchFromProviders s1 env.http ip ipvType with ⟨r, s2, calls⟩
  rw [hf] at hfr
  simp only at hfr
  cases r with
  | ok info =>
    simp only [cacheInfo, Time.Add, hfr.1, hfr.2, hcf.1, true_and]
    refine ⟨?_, ?_⟩
    · intro info1 h
      cases h
      rfl
    · intro h
      exact absurd rfl (h info)
  | error e =>
    simp [hfr.1, hfr.2, hcf.1]
  | panic =>
    simp [hfr.1, hfr.2, hcf.1]

/-- The loop of a lookup that misses the cache, when the cursor is in range. -/
theorem GetIPInfo_miss_loop (s : IPService) (env : Env) (ip ipvType : String)
    (hn : 1 ≤ (getEnabledProviders s).length) :
    fetchFromProviders (getCachedInfo s env.now ip).2 env.http ip ipvType =
      fetchLoop env.http (getEnabledProviders s) ip (if ipvType = "" then "4" else ipvType)
        (getEnabledProviders s).length 0 (getCachedInfo s env.now ip).2 := by
  have hen : getEnabledProviders (getCachedInfo s env.now ip).2 = getEnabledProviders s := by
    unfold getEnabledProviders
    rw [(getCachedInfo_frame s env.now ip).1]
  have h := fetchFromProviders_eq_loop (getCachedInfo s env.now ip).2 env.http ip ipvType
    (by rw [hen]; exact hn)
  rw [hen] at h
  exact h

/-- A lookup that misses the cache with the cursor in range: the shape of its
adapter calls, its result and the cursor afterwards. -/
theorem GetIPInfo_miss_spec (s : IPService) (env : Env) (ip ipvType : String)
    (hn : 1 ≤ (getEnabledProviders s).length)
    (hc : s.currentIndex < (getEnabledProviders s).length)
    (hmiss : (getCachedInfo s env.now ip).1 = none) :
    1 ≤ (GetIPInfo s env ip ipvType).calls.length ∧
    (GetIPInfo s env ip ipvType).calls.length ≤ (getEnabledProviders s).length ∧
    (∀ j, j < (GetIPInfo s env ip ipvType).calls.length →
      (GetIPInfo s env ip ipvType).calls[j]? =
        (getEnabledProviders s)[(s.currentIndex + j) % (getEnabledProviders s).length]?) ∧
    (∀ j p, (GetIPInfo s env ip ipvType).calls[j]? = some p →
      j + 1 < (GetIPInfo s env ip ipvType).calls.length →
      ∃ e, fetchFromProvider (env.http j) p ip (if ipvType = "" then "4" else ipvType) = .error e) ∧
    (GetIPInfo s env ip ipvType).state.currentIndex =
      (s.currentIndex + (GetIPInfo s env ip ipvType).calls.length) % (getEnabledProviders s).length ∧
    (GetIPInfo s env ip ipvType).state.providers = s.providers ∧
    ((∃ info p, (GetIPInfo s env ip ipvType).result = .ok info ∧
        (GetIPInfo s env ip ipvType).calls[(GetIPInfo s env ip ipvType).calls.length - 1]? = some p ∧
        fetchFromProvider (env.http ((GetIPInfo s env ip ipvType).calls.length - 1)) p ip
          (if ipvType = "" then "4" else ipvType) = .ok info) ∨
      ((GetIPInfo s env ip ipvType).result =
          .error "all providers failed to fetch IP information" ∧
        (GetIPInfo s env ip ipvType).calls.length = (getEnabledProviders s).length ∧
        ∀ j p, (GetIPInfo s env ip ipvType).calls[j]? = some p →
          ∃ e, fetchFromProvider (env.http j) p ip (if ipvType = "" then "4" else ipvType) =
            .error e)) := by
  obtain ⟨hres, hcalls, hprov, hcur, -, -⟩ := GetIPInfo_miss s env ip ipvType hmiss
  have hloop := GetIPInfo_miss_loop s env ip ipvType hn
  have hfr := getCachedInfo_frame s env.now ip
  have hc1 : (getCachedInfo s env.now ip).2.currentIndex < (getEnabledProviders s).length := by
    rw [hfr.2]; exact hc
  obtain ⟨h1, -, -, h4, h5, h6, h7⟩ :=
    fetchLoop_spec env.http (getEnabledProviders s) ip (if ipvType = "" then "4" else ipvType)
      (getEnabledProviders s).length 0 _ hc1
  rw [hres, hcalls, hprov, hcur, hloop]
  rw [hfr.2] at h4 h5
  simp only [Nat.zero_add] at h6 h7
  have hm : 1 ≤ (fetchLoop env.http (getEnabledProviders s) ip (if ipvType = "" then "4" else ipvType)
      (getEnabledProviders s).length 0 (getCachedInfo s env.now ip).2).2.2.length := by
    rcases h7 with ⟨info, p, -, hb, -⟩ | ⟨-, hb, -⟩
    · by_contra hcon
      have h0 : (fetchLoop env.http (getEnabledProviders s) ip
          (if ipvType = "" then "4" else ipvType)
          (getEnabledProviders s).length 0 (getCachedInfo s env.now ip).2).2.2 = [] := by
        apply List.eq_nil_of_length_eq_zero
        omega
      rw [h0] at hb
      simp at hb
    · omega
  exact ⟨hm, h1, h5, h6, h4, rfl, h7⟩

/-- A lookup that misses the cache when the provider at the cursor fails and
the next one in rotation succeeds. -/
theorem GetIPInfo_miss_second (s : IPService) (env : Env) (ip ipvType : String)
    (hmiss : (getCachedInfo s env.now ip).1 = none) (a b : APIProvider) (infoB : IPInfo)
    (h2 : 2 ≤ (getEnabledProviders s).length)
    (ha : (getEnabledProviders s)[s.currentIndex]? = some a)
    (hb : (getEnabledProviders s)[(s.currentIndex + 1) % (getEnabledProviders s).length]? = some b)
    (hfa : ∃ e, fetchFromProvider (env.http 0) a ip (if ipvType = "" then "4" else ipvType) = .error e)
    (hfb : fetchFromProvider (env.http 1) b ip (if ipvType = "" then "4" else ipvType) = .ok infoB) :
    (GetIPInfo s env ip ipvType).result = .ok infoB ∧
    (GetIPInfo s env ip ipvType).calls = [a, b] := by
  obtain ⟨hres, hcalls, -, -, -, -⟩ := GetIPInfo_miss s env ip ipvType hmiss
  have hloop := GetIPInfo_miss_loop s env ip ipvType (by omega)
  have hfr := getCachedInfo_frame s env.now ip
  rw [hres, hcalls, hloop]
  obtain ⟨e, hfa⟩ := hfa
  obtain ⟨k, hk⟩ : ∃ k, (getEnabledProviders s).length = k + 2 := ⟨_, (Nat.sub_add_cancel h2).symm⟩
  have hnext0 : getNextProvider (getCachedInfo s env.now ip).2 (getEnabledProviders s) =
      some (a, { (getCachedInfo s env.now ip).2 with
        currentIndex := (s.currentIndex + 1) % (getEnabledProviders s).length }) := by
    simp [getNextProvider, hfr.2, ha]
  have hnext1 : getNextProvider { (getCachedInfo s env.now ip).2 with
        currentIndex := (s.currentIndex + 1) % (getEnabledProviders s).length }
        (getEnabledProviders s) =
      some (b, { (getCachedInfo s env.now ip).2 with
        currentIndex := ((s.currentIndex + 1) % (getEnabledProviders s).length + 1) %
          (getEnabledProviders s).length }) := by
    simp [getNextProvider, hb]
  rw [hk] at hnext0 hnext1 ⊢
  rw [fetchLoop_succ_error env.http _ ip _ (k + 1) 0 _ _ a e (hk ▸ hnext0) hfa]
  rw [fetchLoop_succ_ok env.http _ ip _ k (0 + 1) _ _ b infoB (hk ▸ hnext1) hfb]
  exact ⟨rfl, rfl⟩

/-- C4: on a cache miss with `n >= 1` enabled providers and the cursor `c < n`,
`GetIPInfo` calls the adapters of `enabled[c], enabled[(c+1) mod n], ...` in
that order, between one and `n` of them; every call but the last failed; the
cursor ends at `(c + calls) mod n`; and either the last call succeeded and its
record is returned with no error, or all `n` calls failed and the
all-providers-failed error is returned. In particular, with `n >= 2`, if the
provider at the cursor fails and the next one succeeds, the result is the
record of the second and exactly these two adapters were called. -/
theorem getIPInfo_rotation_fallback (s : IPService) (env : Env) (ip ipvType : String)
    (hn : 1 ≤ (getEnabledProviders s).length)
    (hc : s.currentIndex < (getEnabledProviders s).length)
    (hmiss : (getCachedInfo s env.now ip).1 = none) :
    1 ≤ (GetIPInfo s env ip ipvType).calls.length ∧
    (GetIPInfo s env ip ipvType).calls.length ≤ (getEnabledProviders s).length ∧
    (∀ j, j < (GetIPInfo s env ip ipvType).calls.length →
      (GetIPInfo s env ip ipvType).calls[j]? =
        (getEnabledProviders s)[(s.currentIndex + j) % (getEnabledProviders s).length]?) ∧
    (∀ j p, (GetIPInfo s env ip ipvType).calls[j]? = some p →
      j + 1 < (GetIPInfo s env ip ipvType).calls.length →
      ∃ e, fetchFromProvider (env.http j) p ip (if ipvType = "" then "4" else ipvType) = .error e) ∧
    (GetIPInfo s env ip ipvType).state.currentIndex =
      (s.currentIndex + (GetIPInfo s env ip ipvType).calls.length) % (getEnabledProviders s).length ∧
    (GetIPInfo s env ip ipvType).state.providers = s.providers ∧
    ((∃ info p, (GetIPInfo s env ip ipvType).result = .ok info ∧
        (GetIPInfo s env ip ipvType).calls[(GetIPInfo s env ip ipvType).calls.length - 1]? = some p ∧
        fetchFromProvider (env.http ((GetIPInfo s env ip ipvType).calls.length - 1)) p ip
          (if ipvType = "" then "4" else ipvType) = .ok info) ∨
      ((GetIPInfo s env ip ipvType).result =
          .error "all providers failed to fetch IP information" ∧
        (GetIPInfo s env ip ipvType).calls.length = (getEnabledProviders s).length ∧
        ∀ j p, (GetIPInfo s env ip ipvType).calls[j]? = some p →
          ∃ e, fetchFromProvider (env.http j) p ip (if ipvType = "" then "4" else ipvType) =
            .error e)) ∧
    (∀ a b infoB, 2 ≤ (getEnabledProviders s).length →
      (getEnabledProviders s)[s.currentIndex]? = some a →
      (getEnabledProviders s)[(s.currentIndex + 1) % (getEnabledProviders s).length]? = some b →
      (∃ e, fetchFromProvider (env.http 0) a ip (if ipvType = "" then "4" else ipvType) = .error e) →
      fetchFromProvider (env.http 1) b ip (if ipvType = "" then "4" else ipvType) = .ok infoB →
      (GetIPInfo s env ip ipvType).result = .ok infoB ∧
      (GetIPInfo s env ip ipvType).calls = [a, b]) :=
  ⟨(GetIPInfo_miss_spec s env ip ipvType hn hc hmiss).1,
   (GetIPInfo_miss_spec s env ip ipvType hn hc hmiss).2.1,
   (GetIPInfo_miss_spec s env ip ipvType hn hc hmiss).2.2.1,
   (GetIPInfo_miss_spec s env ip ipvType hn hc hmiss).2.2.2.1,
   (GetIPInfo_miss_spec s env ip ipvType hn hc hmiss).2.2.2.2.1,
   (GetIPInfo_miss_spec s env ip ipvType hn hc hmiss).2.2.2.2.2.1,
   (GetIPInfo_miss_spec s env ip ipvType hn hc hmiss).2.2.2.2.2.2,
   fun a b infoB h2 ha hb hfa hfb =>
     GetIPInfo_miss_second s env ip ipvType hmiss a b infoB h2 ha hb hfa hfb⟩

/-- Witness of `getIPInfo_rotation_fallback`: with two enabled providers and
only the second endpoint answering, the lookup calls both and the cursor
returns to 0. -/
theorem getIPInfo_rotation_fallback_witness :
    (GetIPInfo twoProviders (envOnly "https://mirror.example/get-ipdata" 0) "1.2.3.4" "").calls.length = 2 ∧
    (GetIPInfo twoProviders (envOnly "https://mirror.example/get-ipdata" 0) "1.2.3.4" "").state.currentIndex
      = (twoProviders.currentIndex + 2) % (getEnabledProviders twoProviders).length ∧
    (GetIPInfo twoProviders (envOnly "https://mirror.example/get-ipdata" 0) "1.2.3.4" "").result =
      .ok (sampleResponse.ToIPInfo 0) ∧
    (GetIPInfo twoProviders (envOnly "https://mirror.example/get-ipdata" 0) "1.2.3.4" "").calls =
      [{ Name := "iplocation.net", URL := "https://www.iplocation.net/get-ipdata", Enabled := true },
       mirror] := by
  have h := getIPInfo_rotation_fallback twoProviders
    (envOnly "https://mirror.example/get-ipdata" 0) "1.2.3.4" ""
    (by decide) (by decide) (by rfl)
  have h2 := h.2.2.2.2.2.2.2
    { Name := "iplocation.net", URL := "https://www.iplocation.net/get-ipdata", Enabled := true }
    mirror (sampleResponse.ToIPInfo 0) (by decide) (by rfl) (by rfl) ⟨_, rfl⟩ (by rfl)
  have hlen : (GetIPInfo twoProviders (envOnly "https://mirror.example/get-ipdata" 0)
      "1.2.3.4" "").calls.length = 2 := by rw [h2.2]; rfl
  refine ⟨hlen, ?_, h2.1, h2.2⟩
  rw [h.2.2.2.2.1, hlen]

theorem Cache.not_mem_of_get_none (c : Cache) (ip : String) (h : Cache.get c ip = none)
    (e : CachedIPInfo) : (ip, e) ∉ c := by
  induction c with
  | nil => simp
  | cons kv rest ih =>
    obtain ⟨k0, v⟩ := kv
    by_cases h0 : k0 = ip
    · simp [Cache.get, h0] at h
    · simp only [Cache.get, if_neg h0] at h
      simp only [List.mem_cons, Prod.mk.injEq, not_or, not_and]
      exact ⟨fun hk => absurd hk.symm h0, ih h⟩

/-- C5: with `n >= 1` enabled providers, the cursor in range and no fresh
entry for `ip`, if the adapter of every enabled provider fails then
`GetIPInfo` returns the all-providers-failed error, every entry of the cache
afterwards was in the cache before under the same key, and `ip` has no
entry. -/
theorem getIPInfo_all_providers_fail (s : IPService) (env : Env) (ip ipvType : String)
    (hn : 1 ≤ (getEnabledProviders s).length)
    (hc : s.currentIndex < (getEnabledProviders s).length)
    (hmiss : (getCachedInfo s env.now ip).1 = none)
    (hfail : ∀ i p, p ∈ getEnabledProviders s →
      ∃ e, fetchFromProvider (env.http i) p ip (if ipvType = "" then "4" else ipvType) = .error e) :
    (GetIPInfo s env ip ipvType).result = .error "all providers failed to fetch IP information" ∧
    (∀ k e, Cache.get (GetIPInfo s env ip ipvType).state.cache k = some e →
      Cache.get s.cache k = some e) ∧
    (∀ kv, kv ∈ (GetIPInfo s env ip ipvType).state.cache → kv ∈ s.cache) ∧
    Cache.get (GetIPInfo s env ip ipvType).state.cache ip = none ∧
    (∀ e, (ip, e) ∉ (GetIPInfo s env ip ipvType).state.cache) := by
  obtain ⟨-, -, h3, -, -, -, h7⟩ := GetIPInfo_miss_spec s env ip ipvType hn hc hmiss
  have hres : (GetIPInfo s env ip ipvType).result =
      .error "all providers failed to fetch IP information" := by
    rcases h7 with ⟨info, p, -, hb, hok⟩ | ⟨ha, -, -⟩
    · exfalso
      have hlt : (GetIPInfo s env ip ipvType).calls.length - 1 <
          (GetIPInfo s env ip ipvType).calls.length := by
        obtain ⟨hlt, -⟩ := List.getElem?_eq_some.1 hb
        exact hlt
      have hp := h3 _ hlt
      rw [hb] at hp
      obtain ⟨e, he⟩ := hfail ((GetIPInfo s env ip ipvType).calls.length - 1) p
        (List.getElem?_mem hp.symm)
      rw [he] at hok
      cases hok
    · exact ha
  have hcache : (GetIPInfo s env ip ipvType).state.cache = (getCachedInfo s env.now ip).2.cache := by
    apply (GetIPInfo_miss s env ip ipvType hmiss).2.2.2.2.2
    intro info hinfo
    rw [hres] at hinfo
    cases hinfo
  have hnone := getCachedInfo_miss s env.now ip hmiss
  rw [hcache]
  refine ⟨hres, ?_, ?_, hnone, Cache.not_mem_of_get_none _ ip hnone⟩
  · intro k e hk
    by_cases hkip : k = ip
    · subst hkip
      rw [hnone] at hk
      cases hk
    · rwa [getCachedInfo_get_ne s env.now ip k hkip] at hk
  · intro kv hkv
    exact getCachedInfo_mem s env.now ip kv hkv

/-- Witness of `getIPInfo_all_providers_fail`: two enabled providers, the
network down, a stale entry for the looked-up key in the cache. -/
theorem getIPInfo_all_providers_fail_witness :
    (GetIPInfo (AddProvider (run NewIPService [.getIPInfo (envUp 0) "1.2.3.4" "4"]) mirror)
        (envDown (Hour + 1)) "1.2.3.4" "4").result =
      .error "all providers failed to fetch IP information" ∧
    Cache.get (GetIPInfo (AddProvider (run NewIPService [.getIPInfo (envUp 0) "1.2.3.4" "4"]) mirror)
        (envDown (Hour + 1)) "1.2.3.4" "4").state.cache "1.2.3.4" = none :=
  ⟨(getIPInfo_all_providers_fail
      (AddProvider (run NewIPService [.getIPInfo (envUp 0) "1.2.3.4" "4"]) mirror)
      (envDown (Hour + 1)) "1.2.3.4" "4" (by decide) (by decide) (by rfl)
      (fun _ p _ => by
        by_cases h : p.Name = "iplocation.net"
        · exact ⟨_, by simp [fetchFromProvider, h, fetchFromIPLocationNet, envDown, downHttp]; rfl⟩
        · exact ⟨_, by simp [fetchFromProvider, h]; rfl⟩)).1,
   (getIPInfo_all_providers_fail
      (AddProvider (run NewIPService [.getIPInfo (envUp 0) "1.2.3.4" "4"]) mirror)
      (envDown (Hour + 1)) "1.2.3.4" "4" (by decide) (by decide) (by rfl)
      (fun _ p _ => by
        by_cases h : p.Name = "iplocation.net"
        · exact ⟨_, by simp [fetchFromProvider, h, fetchFromIPLocationNet, envDown, downHttp]; rfl⟩
        · exact ⟨_, by simp [fetchFromProvider, h]; rfl⟩)).2.2.2.1⟩

/-! ## What a lookup does to the cache -/

theorem GetIPInfo_hit (s : IPService) (env : Env) (ip ipvType : String) (c : CachedIPInfo)
    (h : (getCachedInfo s env.now ip).1 = some c) :
    (GetIPInfo s env ip ipvType).result = .ok c.Data ∧
    (GetIPInfo s env ip ipvType).calls = [] ∧
    (GetIPInfo s env ip ipvType).state = (getCachedInfo s env.now ip).2 := by
  unfold GetIPInfo
  rcases hg : getCachedInfo s env.now ip with ⟨o, s1⟩
  rw [hg] at h
  simp only at h
  subst h
  exact ⟨rfl, rfl, rfl⟩

theorem GetIPInfo_state_cases (s : IPService) (env : Env) (ip ipvType : String) :
    (GetIPInfo s env ip ipvType).state.cache = (getCachedInfo s env.now ip).2.cache ∨
    ∃ info, (GetIPInfo s env ip ipvType).state.cache =
      Cache.set (getCachedInfo s env.now ip).2.cache ip
        { Data := info, CachedAt := env.storeTime, ExpiresAt := env.storeTime + Hour } := by
  cases h : (getCachedInfo s env.now ip).1 with
  | some c =>
    left
    rw [(GetIPInfo_hit s env ip ipvType c h).2.2]
  | none =>
    obtain ⟨-, -, -, -, h5, h6⟩ := GetIPInfo_miss s env ip ipvType h
    cases hr : (GetIPInfo s env ip ipvType).result with
    | ok info => exact Or.inr ⟨info, h5 info hr⟩
    | error e =>
      left
      apply h6
      intro info hinfo
      rw [hr] at hinfo
      cases hinfo
    | panic =>
      left
      apply h6
      intro info hinfo
      rw [hr] at hinfo
      cases hinfo

theorem GetIPInfo_get_ne (s : IPService) (env : Env) (ip ipvType k : String) (hk : k ≠ ip) :
    Cache.get (GetIPInfo s env ip ipvType).state.cache k = Cache.get s.cache k := by
  rcases GetIPInfo_state_cases s env ip ipvType with h | ⟨info, h⟩
  · rw [h, getCachedInfo_get_ne s env.now ip k hk]
  · rw [h, Cache.get_set_ne _ ip k _ hk, getCachedInfo_get_ne s env.now ip k hk]

theorem GetIPInfo_cache_mem (s : IPService) (env : Env) (ip ipvType : String)
    (kv : String × CachedIPInfo) (h : kv ∈ (GetIPInfo s env ip ipvType).state.cache) :
    kv ∈ s.cache ∨ kv.2.ExpiresAt = kv.2.CachedAt + Hour := by
  rcases GetIPInfo_state_cases s env ip ipvType with hc | ⟨info, hc⟩
  · rw [hc] at h
    exact Or.inl (getCachedInfo_mem s env.now ip kv h)
  · rw [hc] at h
    simp only [Cache.set, List.mem_cons] at h
    rcases h with h | h
    · right
      rw [h]
    · exact Or.inl (getCachedInfo_mem s env.now ip kv (Cache.mem_delete _ _ _ h).1)

theorem step_cache_invariant (s : IPService) (op : Op)
    (h : ∀ kv, kv ∈ s.cache → kv.2.ExpiresAt = kv.2.CachedAt + Hour) :
    ∀ kv, kv ∈ (step s op).cache → kv.2.ExpiresAt = kv.2.CachedAt + Hour := by
  intro kv hkv
  cases op with
  | addProvider p => exact h kv hkv
  | enableProvider name enabled =>
    apply h kv
    unfold step EnableProvider at hkv
    cases hl : enableLoop name enabled s.providers with
    | none => simpa [hl] using hkv
    | some ps => simpa [hl] using hkv
  | clearCache => simp [step, ClearCache] at hkv
  | getIPInfo env ip ipvType =>
    rcases GetIPInfo_cache_mem s env ip ipvType kv hkv with h1 | h1
    · exact h kv h1
    · exact h1

theorem run_cache_invariant (ops : List Op) (s : IPService)
    (h : ∀ kv, kv ∈ s.cache → kv.2.ExpiresAt = kv.2.CachedAt + Hour) :
    ∀ kv, kv ∈ (run s ops).cache → kv.2.ExpiresAt = kv.2.CachedAt + Hour := by
  induction ops generalizing s with
  | nil => exact h
  | cons op rest ih => exact ih (step s op) (step_cache_invariant s op h)

/-- C8: after a `GetIPInfo(ip, v)` that misses the cache and succeeds with
record `r`, the insertion reading the clock at `T = env.storeTime`, the cache
maps `ip` to the entry with `Data = r`, `CachedAt = T` and
`ExpiresAt = T + 1 hour`, holds no other entry for `ip`, and maps every other
key as before. Every entry of the cache of every state reached from
`NewIPService()` satisfies `ExpiresAt = CachedAt + 1 hour`. -/
theorem getIPInfo_stores_entry (s : IPService) (env : Env) (ip ipvType : String) (r : IPInfo)
    (ops : List Op)
    (hmiss : (getCachedInfo s env.now ip).1 = none)
    (hok : (GetIPInfo s env ip ipvType).result = .ok r) :
    Cache.get (GetIPInfo s env ip ipvType).state.cache ip =
      some { Data := r, CachedAt := env.storeTime, ExpiresAt := env.storeTime + Hour } ∧
    (∀ e, (ip, e) ∈ (GetIPInfo s env ip ipvType).state.cache →
      e = { Data := r, CachedAt := env.storeTime, ExpiresAt := env.storeTime + Hour }) ∧
    (∀ k, k ≠ ip → Cache.get (GetIPInfo s env ip ipvType).state.cache k = Cache.get s.cache k) ∧
    (∀ kv, kv ∈ (run NewIPService ops).cache → kv.2.ExpiresAt = kv.2.CachedAt + Hour) := by
  have hcache := (GetIPInfo_miss s env ip ipvType hmiss).2.2.2.2.1 r hok
  refine ⟨?_, ?_, ?_, ?_⟩
  · rw [hcache]
    exact Cache.get_set_self _ _ _
  · intro e he
    rw [hcache] at he
    simp only [Cache.set, List.mem_cons, Prod.mk.injEq, true_and] at he
    rcases he with he | he
    · exact he
    · exact absurd rfl (Cache.mem_delete _ _ _ he).2
  · intro k hk
    exact GetIPInfo_get_ne s env ip ipvType k hk
  · apply run_cache_invariant
    intro kv hkv
    simp [NewIPService] at hkv

/-- Witness of `getIPInfo_stores_entry`: the first lookup on the fresh
service, at time 7. -/
theorem getIPInfo_stores_entry_witness :
    Cache.get (GetIPInfo NewIPService (envUp 7) "1.2.3.4" "4").state.cache "1.2.3.4" =
      some { Data := sampleResponse.ToIPInfo 7, CachedAt := 7, ExpiresAt := 7 + Hour } :=
  (getIPInfo_stores_entry NewIPService (envUp 7) "1.2.3.4" "4" (sampleResponse.ToIPInfo 7) []
    (by rfl) (by rfl)).1

/-! ## A cached entry across later calls -/

/-- A lookup of a key whose entry has not expired: no adapter is called, the
cached record is returned and the service is unchanged. -/
theorem GetIPInfo_fresh (s : IPService) (env : Env) (ip ipvType : String) (e : CachedIPInfo)
    (hget : Cache.get s.cache ip = some e) (hfresh : env.now ≤ e.ExpiresAt) :
    (GetIPInfo s env ip ipvType).calls = [] ∧
    (GetIPInfo s env ip ipvType).result = .ok e.Data ∧
    (GetIPInfo s env ip ipvType).state = s := by
  have hexp : e.IsExpired env.now = false := by
    simp only [CachedIPInfo.IsExpired, Time.After, decide_eq_false_iff_not, not_lt]
    exact hfresh
  have hhit := getCachedInfo_hit s env.now ip e hget hexp
  obtain ⟨h1, h2, h3⟩ := GetIPInfo_hit s env ip ipvType e (by rw [hhit])
  rw [hhit] at h3
  exact ⟨h2, h1, h3⟩

theorem EnableProvider_cache (s : IPService) (name : String) (enabled : Bool) :
    (EnableProvider s name enabled).2.cache = s.cache := by
  unfold EnableProvider
  cases enableLoop name enabled s.providers with
  | none => rfl
  | some ps => rfl

/-- One call other than `ClearCache` keeps the entry of `ip`, provided that a
lookup of `ip` itself reads a clock at which the entry has not expired. -/
theorem step_keeps_entry (s : IPService) (op : Op) (ip : String) (e : CachedIPInfo)
    (hget : Cache.get s.cache ip = some e)
    (hclear : op ≠ Op.clearCache)
    (hclock : ∀ env v, op = Op.getIPInfo env ip v → env.now ≤ e.ExpiresAt) :
    Cache.get (step s op).cache ip = some e := by
  cases op with
  | addProvider p => exact hget
  | enableProvider name enabled =>
    show Cache.get (EnableProvider s name enabled).2.cache ip = some e
    rw [EnableProvider_cache]
    exact hget
  | clearCache => exact absurd rfl hclear
  | getIPInfo env ip1 v1 =>
    show Cache.get (GetIPInfo s env ip1 v1).state.cache ip = some e
    by_cases hip : ip = ip1
    · subst hip
      rw [(GetIPInfo_fresh s env ip v1 e hget (hclock env v1 rfl)).2.2]
      exact hget
    · rw [GetIPInfo_get_ne s env ip1 v1 ip hip]
      exact hget

/-- A sequence of calls without `ClearCache` keeps the entry of `ip`, provided
that the lookups of `ip` in it read a clock at which the entry has not
expired. -/
theorem run_keeps_entry (ops : List Op) (s : IPService) (ip : String) (e : CachedIPInfo)
    (hget : Cache.get s.cache ip = some e)
    (hclear : Op.clearCache ∉ ops)
    (hclock : ∀ env v, Op.getIPInfo env ip v ∈ ops → env.now ≤ e.ExpiresAt) :
    Cache.get (run s ops).cache ip = some e := by
  induction ops generalizing s with
  | nil => exact hget
  | cons op rest ih =>
    apply ih (step s op)
    · apply step_keeps_entry s op ip e hget
      · intro h
        exact hclear (h ▸ List.mem_cons_self _ _)
      · intro env v h
        exact hclock env v (h ▸ List.mem_cons_self _ _)
    · intro h
      exact hclear (List.mem_cons_of_mem _ h)
    · intro env v h
      exact hclock env v (List.mem_cons_of_mem _ h)

/-- C3: if `GetIPInfo(ip, v)` misses the cache and succeeds with record `r`,
the entry being stored at time `T = env1.storeTime`, then after any sequence
`ops` of later calls (`AddProvider`, `EnableProvider`, `GetIPInfo` on any key,
with whatever adapter outcomes) that contains no `ClearCache`, a second
`GetIPInfo(ip, v')` at any time `T'` with `T <= T' < T + 1 hour` calls no
adapter, returns `r` with no error, and leaves the whole service (cache,
provider list, cursor) as it was before that second call. The clock enters
only through `hclock`: the lookups of `ip` made in between read a clock no
later than `T + 1 hour`, as every lookup made before `T'` does. The first call
succeeding already makes the cursor in range at that call. -/
theorem getIPInfo_cache_hit (s : IPService) (env1 env2 : Env) (ip v v' : String) (r : IPInfo)
    (ops : List Op)
    (hmiss : (getCachedInfo s env1.now ip).1 = none)
    (hok : (GetIPInfo s env1 ip v).result = .ok r)
    (hclear : Op.clearCache ∉ ops)
    (hclock : ∀ env v1, Op.getIPInfo env ip v1 ∈ ops → env.now ≤ env1.storeTime + Hour)
    (_h1 : env1.storeTime ≤ env2.now)
    (h2 : env2.now < env1.storeTime + Hour) :
    (GetIPInfo (run (GetIPInfo s env1 ip v).state ops) env2 ip v').calls = [] ∧
    (GetIPInfo (run (GetIPInfo s env1 ip v).state ops) env2 ip v').result = .ok r ∧
    (GetIPInfo (run (GetIPInfo s env1 ip v).state ops) env2 ip v').state =
      run (GetIPInfo s env1 ip v).state ops := by
  have hcache := (GetIPInfo_miss s env1 ip v hmiss).2.2.2.2.1 r hok
  have hget : Cache.get (GetIPInfo s env1 ip v).state.cache ip =
      some { Data := r, CachedAt := env1.storeTime, ExpiresAt := env1.storeTime + Hour } := by
    rw [hcache]
    exact Cache.get_set_self _ _ _
  have hrun := run_keeps_entry ops (GetIPInfo s env1 ip v).state ip _ hget hclear hclock
  exact GetIPInfo_fresh (run (GetIPInfo s env1 ip v).state ops) env2 ip v' _ hrun
    (Int.le_of_lt h2)

/-- Witness of `getIPInfo_cache_hit`: a lookup of `1.2.3.4` at time 0 on the
fresh service; then a provider is added, another key is looked up, `1.2.3.4`
is looked up again and the added provider is disabled; then `1.2.3.4` is
looked up thirty minutes after the first call with the network down. -/
theorem getIPInfo_cache_hit_witness :
    (GetIPInfo (run (GetIPInfo NewIPService (envUp 0) "1.2.3.4" "4").state laterOps)
        (envDown 1800000000000) "1.2.3.4" "").calls = [] ∧
    (GetIPInfo (run (GetIPInfo NewIPService (envUp 0) "1.2.3.4" "4").state laterOps)
        (envDown 1800000000000) "1.2.3.4" "").result = .ok (sampleResponse.ToIPInfo 0) ∧
    (GetIPInfo (run (GetIPInfo NewIPService (envUp 0) "1.2.3.4" "4").state laterOps)
        (envDown 1800000000000) "1.2.3.4" "").state =
      run (GetIPInfo NewIPService (envUp 0) "1.2.3.4" "4").state laterOps :=
  getIPInfo_cache_hit NewIPService (envUp 0) (envDown 1800000000000) "1.2.3.4" "4" ""
    (sampleResponse.ToIPInfo 0) laterOps (by rfl) (by rfl)
    (by simp [laterOps])
    (by
      intro env v1 h
      simp only [laterOps, List.mem_cons, List.mem_singleton, List.not_mem_nil, or_false,
        reduceCtorEq, false_or, Op.getIPInfo.injEq] at h
      rcases h with ⟨_, h, _⟩ | ⟨h, _, _⟩
      · exact absurd h (by decide)
      · rw [h]
        decide)
    (by decide) (by decide)

/-! ## Round robin over consecutive misses -/

/-- A miss served by the provider at the cursor: one adapter call, the cursor
moves on by one. -/
theorem GetIPInfo_miss_first_ok (s : IPService) (env : Env) (ip ipvType : String)
    (hn : 1 ≤ (getEnabledProviders s).length)
    (hc : s.currentIndex < (getEnabledProviders s).length)
    (hmiss : (getCachedInfo s env.now ip).1 = none)
    (hok : ∀ p, p ∈ getEnabledProviders s →
      ∃ r, fetchFromProvider (env.http 0) p ip (if ipvType = "" then "4" else ipvType) = .ok r) :
    (GetIPInfo s env ip ipvType).calls =
      ((getEnabledProviders s)[s.currentIndex % (getEnabledProviders s).length]?).toList ∧
    (GetIPInfo s env ip ipvType).state.currentIndex =
      (s.currentIndex + 1) % (getEnabledProviders s).length ∧
    (GetIPInfo s env ip ipvType).state.providers = s.providers := by
  obtain ⟨h1, -, h3, h4, h5, h6, -⟩ := GetIPInfo_miss_spec s env ip ipvType hn hc hmiss
  have h0 := h3 0 (by omega)
  rw [Nat.add_zero] at h0
  have hlen : (GetIPInfo s env ip ipvType).calls.length = 1 := by
    by_contra hne
    obtain ⟨p, hp⟩ : ∃ p, (GetIPInfo s env ip ipvType).calls[0]? = some p :=
      ⟨_, List.getElem?_eq_getElem (by omega)⟩
    obtain ⟨e, he⟩ := h4 0 p hp (by omega)
    obtain ⟨r, hr⟩ := hok p (List.getElem?_mem (h0 ▸ hp))
    rw [hr] at he
    cases he
  refine ⟨?_, by rw [h5, hlen], h6⟩
  rw [← h0]
  match hcalls : (GetIPInfo s env ip ipvType).calls, hlen with
  | [p], _ => rfl

/-- Consecutive misses on distinct keys with all adapters succeeding: the
`j`-th lookup calls exactly the adapter of `enabled[(c + j) mod n]`. -/
theorem serve_dispatch (enabled : List APIProvider) :
    ∀ (reqs : List (Env × String × String)) (s : IPService),
      getEnabledProviders s = enabled →
      s.currentIndex < enabled.length →
      (reqs.map (fun q => q.2.1)).Nodup →
      (∀ q, q ∈ reqs → (getCachedInfo s q.1.now q.2.1).1 = none) →
      (∀ q, q ∈ reqs → ∀ p, p ∈ enabled →
        ∃ r, fetchFromProvider (q.1.http 0) p q.2.1 (if q.2.2 = "" then "4" else q.2.2) = .ok r) →
      ∀ j, j < reqs.length →
        ((serve s reqs).map (fun l => l.calls))[j]? =
          some ((enabled[(s.currentIndex + j) % enabled.length]?).toList) := by
  intro reqs
  induction reqs with
  | nil =>
    intro s _ _ _ _ _ j hj
    simp at hj
  | cons q rest ih =>
    intro s hen hc hnd hmiss hok j hj
    have hn : 1 ≤ (getEnabledProviders s).length := by rw [hen]; omega
    obtain ⟨hcalls, hcur, hprov⟩ := GetIPInfo_miss_first_ok s q.1 q.2.1 q.2.2 hn (hen ▸ hc)
      (hmiss q (List.mem_cons_self _ _)) (fun p hp => hok q (List.mem_cons_self _ _) p (hen ▸ hp))
    rw [hen] at hcalls hcur
    cases j with
    | zero =>
      simp only [serve, List.map_cons, List.getElem?_cons_zero, Nat.add_zero]
      rw [hcalls]
    | succ j =>
      simp only [serve, List.map_cons, List.getElem?_cons_succ]
      simp only [List.map_cons, List.nodup_cons, List.mem_map, not_exists, not_and] at hnd
      have hen1 : getEnabledProviders (GetIPInfo s q.1 q.2.1 q.2.2).state = enabled := by
        unfold getEnabledProviders at hen ⊢
        rw [hprov, hen]
      have hc1 : (GetIPInfo s q.1 q.2.1 q.2.2).state.currentIndex < enabled.length := by
        rw [hcur]
        exact Nat.mod_lt _ (by omega)
      have hmiss1 : ∀ q1, q1 ∈ rest →
          (getCachedInfo (GetIPInfo s q.1 q.2.1 q.2.2).state q1.1.now q1.2.1).1 = none := by
        intro q1 hq1
        rw [getCachedInfo_fst_congr s _ q1.1.now q1.2.1
          (GetIPInfo_get_ne s q.1 q.2.1 q.2.2 q1.2.1 (fun e => hnd.1 q1 hq1 e))]
        exact hmiss q1 (List.mem_cons_of_mem _ hq1)
      have := ih (GetIPInfo s q.1 q.2.1 q.2.2).state hen1 hc1 hnd.2 hmiss1
        (fun q1 hq1 => hok q1 (List.mem_cons_of_mem _ hq1)) j (by simpa using hj)
      rw [this, hcur, Nat.mod_add_mod, Nat.add_assoc, Nat.add_comm 1 j]

/-- C6: with `N >= 1` enabled providers whose adapters all succeed and the
cursor `c < N`, `N + 1` consecutive `GetIPInfo` calls on distinct uncached IPs
are served as follows: the `j`-th lookup calls exactly the adapter of
`enabled[(c + j) mod N]`; so the first `N` lookups call each enabled provider
once, in configured order starting at `enabled[c]` and wrapping at the end
(from `enabled[0]` to `enabled[N-1]` when `c = 0`), and the `(N+1)`-th lookup
calls the provider that served the first. -/
theorem round_robin_dispatch (s : IPService) (reqs : List (Env × String × String))
    (hn : 1 ≤ (getEnabledProviders s).length)
    (hc : s.currentIndex < (getEnabledProviders s).length)
    (hlen : reqs.length = (getEnabledProviders s).length + 1)
    (hdistinct : (reqs.map (fun q => q.2.1)).Nodup)
    (hmiss : ∀ q, q ∈ reqs → (getCachedInfo s q.1.now q.2.1).1 = none)
    (hok : ∀ q, q ∈ reqs → ∀ p, p ∈ getEnabledProviders s →
      ∃ r, fetchFromProvider (q.1.http 0) p q.2.1 (if q.2.2 = "" then "4" else q.2.2) = .ok r) :
    (∀ j, j < reqs.length →
      ((serve s reqs).map (fun l => l.calls))[j]? =
        some (((getEnabledProviders s)[(s.currentIndex + j) %
          (getEnabledProviders s).length]?).toList)) ∧
    ((serve s reqs).map (fun l => l.calls)).take (getEnabledProviders s).length =
      ((getEnabledProviders s).rotate s.currentIndex).map (fun p => [p]) ∧
    (s.currentIndex = 0 →
      ((serve s reqs).map (fun l => l.calls)).take (getEnabledProviders s).length =
        (getEnabledProviders s).map (fun p => [p])) ∧
    ((serve s reqs).map (fun l => l.calls))[(getEnabledProviders s).length]? =
      ((serve s reqs).map (fun l => l.calls))[0]? := by
  have hall := serve_dispatch (getEnabledProviders s) reqs s rfl hc hdistinct hmiss hok
  have hrot : ((serve s reqs).map (fun l => l.calls)).take (getEnabledProviders s).length =
      ((getEnabledProviders s).rotate s.currentIndex).map (fun p => [p]) := by
    apply List.ext_getElem?
    intro j
    by_cases hj : j < (getEnabledProviders s).length
    · rw [List.getElem?_take, if_pos hj, hall j (by omega), List.getElem?_map,
        List.getElem?_rotate hj, Nat.add_comm j]
      have hlt : (s.currentIndex + j) % (getEnabledProviders s).length <
          (getEnabledProviders s).length := Nat.mod_lt _ (by omega)
      rw [List.getElem?_eq_getElem hlt]
      rfl
    · rw [List.getElem?_take, if_neg hj, List.getElem?_map, List.getElem?_eq_none]
      · rfl
      · rw [List.length_rotate]
        omega
  refine ⟨hall, hrot, ?_, ?_⟩
  · intro h0
    rw [hrot, h0, List.rotate_zero]
  · rw [hall _ (by omega), hall 0 (by omega), Nat.add_mod_right, Nat.add_zero]

theorem fetchFromProvider_upHttp (t : Time) (p : APIProvider) (ip v : String)
    (h : p.Name = "iplocation.net") :
    fetchFromProvider (upHttp t) p ip v = .ok (sampleResponse.ToIPInfo t) := by
  simp [fetchFromProvider, h, fetchFromIPLocationNet, upHttp]

/-- Witness of `round_robin_dispatch`: three lookups of distinct keys on a
fresh service with two enabled providers. -/
theorem round_robin_dispatch_witness :
    ((serve twoProviders threeRequests).map (fun l => l.calls)).take 2 =
      (getEnabledProviders twoProviders).map (fun p => [p]) ∧
    ((serve twoProviders threeRequests).map (fun l => l.calls))[2]? =
      ((serve twoProviders threeRequests).map (fun l => l.calls))[0]? := by
  have h := round_robin_dispatch twoProviders threeRequests (by decide) (by decide) (by decide)
    (by decide)
    (by
      intro q hq
      simp only [threeRequests, List.mem_cons, List.mem_singleton, List.not_mem_nil, or_false] at hq
      rcases hq with rfl | rfl | rfl <;> rfl)
    (by
      intro q hq p hp
      have hname : p.Name = "iplocation.net" := by
        simp only [getEnabledProviders, twoProviders, AddProvider, NewIPService, mirror,
          List.mem_filter, List.mem_append, List.mem_singleton] at hp
        rcases hp.1 with rfl | rfl <;> rfl
      simp only [threeRequests, List.mem_cons, List.mem_singleton, List.not_mem_nil, or_false] at hq
      rcases hq with rfl | rfl | rfl
      · exact ⟨_, fetchFromProvider_upHttp 0 p _ _ hname⟩
      · exact ⟨_, fetchFromProvider_upHttp 1 p _ _ hname⟩
      · exact ⟨_, fetchFromProvider_upHttp 2 p _ _ hname⟩)
  exact ⟨h.2.2.1 rfl, h.2.2.2⟩

/-! ## Expired entries and the cleared cache -/

/-- Eviction on read, on every state: an entry whose `ExpiresAt` is
strictly before `now` makes `getCachedInfo` return nothing and is removed,
every other key keeping its entry. -/
theorem getCachedInfo_evicts_expired (s : IPService) (now : Time) (ip : String) (c : CachedIPInfo)
    (hget : Cache.get s.cache ip = some c) (hexp : c.ExpiresAt < now) :
    (getCachedInfo s now ip).1 = none ∧
    Cache.get (getCachedInfo s now ip).2.cache ip = none ∧
    (∀ k, k ≠ ip → Cache.get (getCachedInfo s now ip).2.cache k = Cache.get s.cache k) ∧
    (getCachedInfo s now ip).2.providers = s.providers ∧
    (getCachedInfo s now ip).2.currentIndex = s.currentIndex := by
  have hfst : (getCachedInfo s now ip).1 = none := by
    simp [getCachedInfo, hget, CachedIPInfo.IsExpired, Time.After, hexp]
  exact ⟨hfst, getCachedInfo_miss s now ip hfst,
    fun k hk => getCachedInfo_get_ne s now ip k hk,
    (getCachedInfo_frame s now ip).1, (getCachedInfo_frame s now ip).2⟩

/-- Where the cursor is in range, the lookup of a key
whose entry has expired calls at least one adapter. -/
theorem getIPInfo_expired_refetch (s : IPService) (env : Env) (ip ipvType : String)
    (c : CachedIPInfo)
    (hget : Cache.get s.cache ip = some c) (hexp : c.ExpiresAt < env.now)
    (hn : 1 ≤ (getEnabledProviders s).length)
    (hc : s.currentIndex < (getEnabledProviders s).length) :
    1 ≤ (GetIPInfo s env ip ipvType).calls.length :=
  (GetIPInfo_miss_spec s env ip ipvType hn hc
    (getCachedInfo_evicts_expired s env.now ip c hget hexp).1).1

/-- C7 fails on the service reached by `shrinkOps`: the cache holds an entry
for `1.1.1.1` that expires at one hour, the time is one hour and a
nanosecond, one provider is enabled, and `GetIPInfo` panics in
`getNextProvider` without calling any adapter. The defect is the cursor left
past the end of the enabled list when a provider is disabled. -/
theorem expired_lookup_panics_past_end :
    Cache.get shrunk.cache "1.1.1.1" =
      some { Data := sampleResponse.ToIPInfo 0, CachedAt := 0, ExpiresAt := Hour } ∧
    Hour < (envUp (Hour + 1)).now ∧
    (getEnabledProviders shrunk).length = 1 ∧
    (getCachedInfo shrunk (envUp (Hour + 1)).now "1.1.1.1").1 = none ∧
    (GetIPInfo shrunk (envUp (Hour + 1)) "1.1.1.1" "4").result = .panic ∧
    (GetIPInfo shrunk (envUp (Hour + 1)) "1.1.1.1" "4").calls = [] := by
  refine ⟨by decide, by decide, by decide, by decide, by decide, by decide⟩

/-- On every state, after `ClearCache()` the
statistics show no entry, the provider list and the cursor are unchanged, and
every key misses the cache. -/
theorem clearCache_empties (s : IPService) (clock : Nat → Time) (now : Time) (ip : String) :
    (GetCacheStats (ClearCache s) clock).total_entries = 0 ∧
    (GetCacheStats (ClearCache s) clock).entries = [] ∧
    (ClearCache s).providers = s.providers ∧
    (ClearCache s).currentIndex = s.currentIndex ∧
    (getCachedInfo (ClearCache s) now ip).1 = none :=
  ⟨rfl, rfl, rfl, rfl, rfl⟩

/-- Where the cursor is in range, a lookup after
`ClearCache()` calls at least one adapter. -/
theorem getIPInfo_after_clear_refetch (s : IPService) (env : Env) (ip ipvType : String)
    (hn : 1 ≤ (getEnabledProviders s).length)
    (hc : s.currentIndex < (getEnabledProviders s).length) :
    1 ≤ (GetIPInfo (ClearCache s) env ip ipvType).calls.length :=
  (GetIPInfo_miss_spec (ClearCache s) env ip ipvType hn hc rfl).1

/-- C10 fails on the service reached by `shrinkOps`: `1.1.1.1` is cached and
one provider is enabled; after `ClearCache()` the statistics are empty, but
the following `GetIPInfo` for `1.1.1.1` panics in `getNextProvider` without
calling any adapter. The defect is the cursor left past the end of the
enabled list when a provider is disabled. -/
theorem lookup_after_clear_panics_past_end :
    (Cache.get shrunk.cache "1.1.1.1").isSome = true ∧
    (GetCacheStats (ClearCache shrunk) (fun _ => 5)).total_entries = 0 ∧
    (GetCacheStats (ClearCache shrunk) (fun _ => 5)).entries = [] ∧
    (getEnabledProviders (ClearCache shrunk)).length = 1 ∧
    (GetIPInfo (ClearCache shrunk) (envUp 5) "1.1.1.1" "4").result = .panic ∧
    (GetIPInfo (ClearCache shrunk) (envUp 5) "1.1.1.1" "4").calls = [] := by
  refine ⟨by decide, by decide, by decide, by decide, by decide, by decide⟩

/-- The panic of a stale cursor, on every state: when a
lookup misses the cache with some provider enabled and the cursor at or past
the end of the enabled list, it panics before any adapter is called. -/
theorem GetIPInfo_miss_panic (s : IPService) (env : Env) (ip ipvType : String)
    (hn : 1 ≤ (getEnabledProviders s).length)
    (hc : (getEnabledProviders s).length ≤ s.currentIndex)
    (hmiss : (getCachedInfo s env.now ip).1 = none) :
    (GetIPInfo s env ip ipvType).result = .panic ∧
    (GetIPInfo s env ip ipvType).calls = [] := by
  obtain ⟨hres, hcalls, -, -, -, -⟩ := GetIPInfo_miss s env ip ipvType hmiss
  have hloop := GetIPInfo_miss_loop s env ip ipvType hn
  have hnext : getNextProvider (getCachedInfo s env.now ip).2 (getEnabledProviders s) = none :=
    getNextProvider_of_ge _ _ (by rw [(getCachedInfo_frame s env.now ip).2]; exact hc)
  obtain ⟨k, hk⟩ : ∃ k, (getEnabledProviders s).length = k + 1 :=
    ⟨_, (Nat.sub_add_cancel hn).symm⟩
  rw [hres, hcalls, hloop, hk]
  rw [fetchLoop_succ_panic env.http _ ip _ k 0 _ hnext]
  exact ⟨rfl, rfl⟩

/-! ## Expiry -/

/-- C2, as stated, fails at the boundary: an entry whose `ExpiresAt` is one
hour is not reported expired at the instant `now = ExpiresAt`, although `now`
is at or after `ExpiresAt`. -/
theorem isExpired_at_expiry_counterexample :
    ¬ ((CachedIPInfo.mk (sampleResponse.ToIPInfo 0) 0 Hour).IsExpired Hour = true ↔
        (CachedIPInfo.mk (sampleResponse.ToIPInfo 0) 0 Hour).ExpiresAt ≤ Hour) := by
  decide

/-- C2, amended: `IsExpired` is true exactly when the current time is strictly
after `ExpiresAt`; at the instant `now = ExpiresAt` the entry is not expired. -/
theorem isExpired_iff_strictly_after (e : CachedIPInfo) (now : Time) :
    (e.IsExpired now = true ↔ e.ExpiresAt < now) ∧ e.IsExpired e.ExpiresAt = false := by
  simp [CachedIPInfo.IsExpired, Time.After]

/-! ## The provider registry -/

theorem enableLoop_none_iff (name : String) (enabled : Bool) (ps : List APIProvider) :
    enableLoop name enabled ps = none ↔ ∀ p ∈ ps, p.Name ≠ name := by
  induction ps with
  | nil => simp [enableLoop]
  | cons p rest ih =>
    by_cases h : p.Name = name
    · simp [enableLoop, h]
    · simp [enableLoop, h, ih]

theorem enableLoop_some (name : String) (enabled : Bool) (ps ps1 : List APIProvider)
    (h : enableLoop name enabled ps = some ps1) :
    ∃ i p, ps[i]? = some p ∧ p.Name = name ∧
      (∀ j q, j < i → ps[j]? = some q → q.Name ≠ name) ∧
      ps1 = ps.set i { p with Enabled := enabled } := by
  induction ps generalizing ps1 with
  | nil => simp [enableLoop] at h
  | cons p rest ih =>
    by_cases hp : p.Name = name
    · rw [enableLoop, if_pos hp, Option.some.injEq] at h
      refine ⟨0, p, by simp, hp, ?_, ?_⟩
      · intro j q hj
        omega
      · rw [← h]
        simp
    · simp only [enableLoop, hp, if_false, Option.map_eq_some'] at h
      obtain ⟨rest1, hr, hps⟩ := h
      obtain ⟨i, q, hq, hn, hfirst, hset⟩ := ih rest1 hr
      refine ⟨i + 1, q, by simpa using hq, hn, ?_, ?_⟩
      · intro j q1 hj hq1
        cases j with
        | zero =>
          simp only [List.getElem?_cons_zero, Option.some.injEq] at hq1
          rw [← hq1]
          exact hp
        | succ j =>
          simp only [List.getElem?_cons_succ] at hq1
          exact hfirst j q1 (by omega) hq1
      · rw [← hps, hset]
        rfl

theorem enableLoop_disabled (name : String) (ps ps1 : List APIProvider)
    (hu : (ps.map (fun p => p.Name)).Nodup)
    (h : enableLoop name false ps = some ps1) :
    ∀ p ∈ ps1.filter (fun provider => provider.Enabled), p.Name ≠ name := by
  induction ps generalizing ps1 with
  | nil => simp [enableLoop] at h
  | cons p rest ih =>
    simp only [List.map_cons, List.nodup_cons, List.mem_map, not_exists, not_and] at hu
    by_cases hp : p.Name = name
    · simp only [enableLoop, hp, if_true, Option.some.injEq] at h
      subst h
      intro q hq
      simp only [List.filter_cons, Bool.false_eq_true, if_false, List.mem_filter] at hq
      intro hqn
      exact hu.1 q hq.1 (hqn.trans hp.symm)
    · simp only [enableLoop, hp, if_false, Option.map_eq_some'] at h
      obtain ⟨rest1, hr, hps⟩ := h
      subst hps
      intro q hq
      simp only [List.filter_cons, List.mem_filter] at hq
      by_cases hen : p.Enabled = true
      · simp only [hen, if_true, List.mem_cons, List.mem_filter] at hq
        rcases hq with hq | hq
        · rw [hq]
          exact hp
        · exact ih rest1 hu.2 hr q (by simpa [List.mem_filter] using hq)
      · simp only [hen, if_false, List.mem_filter] at hq
        exact ih rest1 hu.2 hr q (by simpa [List.mem_filter] using hq)

/-- C9: `EnableProvider(name, enabled)` returns the not-found error exactly
when no provider is called `name`, and then changes nothing; otherwise it
returns no error and overwrites `Enabled` on the first provider called `name`
and nowhere else. The cache, the cursor and the length of the provider list
never change, and when names are unique a provider disabled this way is no
longer in `getEnabledProviders()`. -/
theorem enableProvider_contract (s : IPService) (name : String) (enabled : Bool) :
    ((EnableProvider s name enabled).1 ≠ none ↔ ∀ p ∈ s.providers, p.Name ≠ name) ∧
    ((EnableProvider s name enabled).1 ≠ none →
      (EnableProvider s name enabled).1 = some ("provider " ++ name ++ " not found") ∧
      (EnableProvider s name enabled).2 = s) ∧
    ((EnableProvider s name enabled).1 = none →
      ∃ i p, s.providers[i]? = some p ∧ p.Name = name ∧
        (∀ j q, j < i → s.providers[j]? = some q → q.Name ≠ name) ∧
        (EnableProvider s name enabled).2.providers =
          s.providers.set i { p with Enabled := enabled }) ∧
    (EnableProvider s name enabled).2.cache = s.cache ∧
    (EnableProvider s name enabled).2.currentIndex = s.currentIndex ∧
    (EnableProvider s name enabled).2.providers.length = s.providers.length ∧
    ((s.providers.map (fun p => p.Name)).Nodup →
      ∀ p ∈ getEnabledProviders (EnableProvider s name false).2, p.Name ≠ name) := by
  have hdis : (s.providers.map (fun p => p.Name)).Nodup →
      ∀ p ∈ getEnabledProviders (EnableProvider s name false).2, p.Name ≠ name := by
    intro hu
    unfold EnableProvider getEnabledProviders
    cases hl : enableLoop name false s.providers with
    | none =>
      intro p hp
      simp only [List.mem_filter] at hp
      exact (enableLoop_none_iff name false s.providers).1 hl p hp.1
    | some ps1 => exact enableLoop_disabled name s.providers ps1 hu hl
  unfold EnableProvider at hdis ⊢
  cases hl : enableLoop name enabled s.providers with
  | none =>
    have hnone := (enableLoop_none_iff name enabled s.providers).1 hl
    refine ⟨?_, ?_, ?_, rfl, rfl, rfl, hdis⟩
    · simp only [ne_eq, reduceCtorEq, not_false_eq_true, true_iff]
      exact hnone
    · intro _
      exact ⟨rfl, rfl⟩
    · intro h
      simp at h
  | some ps1 =>
    obtain ⟨i, p, hp, hn, hfirst, hset⟩ := enableLoop_some name enabled s.providers ps1 hl
    refine ⟨?_, ?_, ?_, rfl, rfl, ?_, hdis⟩
    · simp only [ne_eq, not_true_eq_false, false_iff, not_forall]
      exact ⟨p, List.getElem?_mem hp, by simpa using hn⟩
    · intro h
      simp at h
    · intro _
      exact ⟨i, p, hp, hn, hfirst, hset⟩
    · simp [hset]

/-- Witness of `enableProvider_contract`: disabling `iplocation.net` on the
fresh service, whose names are unique, empties `getEnabledProviders()`. -/
theorem enableProvider_contract_witness :
    (NewIPService.providers.map (fun p => p.Name)).Nodup ∧
    (EnableProvider NewIPService "iplocation.net" false).1 = none ∧
    ∀ p ∈ getEnabledProviders (EnableProvider NewIPService "iplocation.net" false).2,
      p.Name ≠ "iplocation.net" :=
  ⟨by decide, by decide,
    (enableProvider_contract NewIPService "iplocation.net" false).2.2.2.2.2.2 (by decide)⟩

/-! ## The cursor after the enabled list shrinks -/

/-- C1 fails on the service reached by `shrinkOps`: one provider is enabled,
the cursor is 1, and the next lookup that misses the cache panics in
`getNextProvider` without calling any adapter. -/
theorem cursor_past_end_after_disable :
    shrunk = run NewIPService shrinkOps ∧
    (getEnabledProviders shrunk).length = 1 ∧
    shrunk.currentIndex = 1 ∧
    ¬ (shrunk.currentIndex < (getEnabledProviders shrunk).length) ∧
    getNextProvider shrunk (getEnabledProviders shrunk) = none ∧
    (GetIPInfo shrunk (envUp 5) "2.2.2.2" "4").result = .panic ∧
    (GetIPInfo shrunk (envUp 5) "2.2.2.2" "4").calls = [] := by
  refine ⟨rfl, by decide, by decide, by decide, rfl, by decide, by decide⟩

end IPCheckApi
